import Mathlib

/-!
Shallow embedding of the assessment-session engine of
`src/kosticynd_math_bot.py` (a single-file Telegram quiz bot).

The embedded fragment covers: the FSM-driven session controller
(`process_topic_choice`, lines 445-467, and `process_test_answer`,
lines 469-526), the topic/test creation guard of `cmd_add_topic`
(lines 373-385), and the OpenAI wrapper functions
`openai_check_answer` (lines 190-220) and `openai_generate_followups`
(lines 223-245).

External I/O is modelled by oracles: each call to the OpenAI chat API
either raises (the Python `openai.ChatCompletion.create` call throws,
which in the source is NOT inside any `try` block) or returns a text
whose subsequent `find`/`json.loads`/field-extraction pipeline either
fails (modelled as `none`; in the source this IS inside a `try` block)
or yields the parsed structure.  SQLite tables are modelled as lists;
`INSERT` appends.  The aiogram FSM state (`TestStates`) together with
the per-user `state.update_data` dictionary is the `FsmState` type.
-/

/-- One generated question: the dict `{'q': ..., 'a': ...}` stored in
`tests.questions_json` (prompt and reference answer). -/
structure QuestionSpec where
  q : String
  a : String
deriving DecidableEq

/-- One judged answer: the dict appended to `answers` at line 479 of
`process_test_answer`. -/
structure AnswerRecord where
  q : String
  correct_answer : String
  student_answer : String
  is_correct : Bool
  comment : String
deriving DecidableEq

/-- A row of the `tests` table (id, topic_id, decoded questions_json,
created_at; the pdf_path column plays no role in the engine). -/
structure TestRow where
  id : Nat
  topic_id : Nat
  questions : List QuestionSpec
  created_at : Nat
deriving DecidableEq

/-- A row of the `users` table (id, telegram_id; name/role columns play
no role in the engine). -/
structure UserRow where
  id : Nat
  telegram_id : Nat
deriving DecidableEq

/-- A row of the `progress` table: the INSERT of lines 494-495 / 512-513
(user_id, topic_id, decoded result_json, score, updated_at). -/
structure ProgressRecord where
  user_id : Nat
  topic_id : Nat
  result : List AnswerRecord
  score : Nat
  updated_at : Nat
deriving DecidableEq

/-- The SQLite database restricted to the tables the session engine
touches.  `topics` rows are (id, title). -/
structure Db where
  topics : List (Nat × String)
  tests : List TestRow
  users : List UserRow
  progress : List ProgressRecord
deriving DecidableEq

/-- The per-user FSM data set at line 465:
`topic_id, test_id, questions, current_index, answers`. -/
structure SessionData where
  topic_id : Nat
  test_id : Nat
  questions : List QuestionSpec
  current_index : Nat
  answers : List AnswerRecord
deriving DecidableEq

/-- The aiogram FSM state of one user.  `idle` is the absence of any
`TestStates` state (fresh chat, or after `state.finish()`);
`choosingTopic` and `inTest` are `TestStates.choosing_topic` and
`TestStates.in_test`, the latter holding the `state.update_data`
dictionary of line 465. -/
inductive FsmState where
  | idle : FsmState
  | choosingTopic : FsmState
  | inTest : SessionData → FsmState
deriving DecidableEq

/-- The Session (in the sense of the data model) held by an FSM state:
only `in_test` carries one. -/
def sessionOf : FsmState → Option SessionData
  | FsmState.inTest d => some d
  | _ => none

/-- Outcome of the one external `openai.ChatCompletion.create` call made
by `openai_check_answer`: `raise` when the call throws (network error,
timeout — note the call at line 204 is outside the `try`), or `reply p`
when it returns text, where `p` is the result of the
`find('\x7b')`/`json.loads`/`obj.get` pipeline of lines 212-216 (`none`
when that pipeline throws, `some (correct, comment)` when it parses;
a parsed object lacking the `correct` key yields `correct = false` via
`bool(obj.get('correct'))`, which `some (false, _)` covers). -/
inductive JudgeCall where
  | raise : JudgeCall
  | reply : Option (Bool × String) → JudgeCall
deriving DecidableEq

/-- Outcome of the one external `openai.ChatCompletion.create` call made
by `openai_generate_followups`: `raise` when the call throws (line 231,
outside the `try`), or `reply p` where `p` is the result of the
`find('[')`/`json.loads`/strip pipeline of lines 238-242 (`none` when it
throws, `some xs` the stripped list of strings when it parses). -/
inductive GenCall where
  | raise : GenCall
  | reply : Option (List String) → GenCall
deriving DecidableEq

/-- The generic fallback comment of line 220 of `openai_check_answer`. -/
def checkFallbackComment : String := "Ответ не распознан автоматизированной системой проверки."

/-- Lines 190-220, `openai_check_answer`.  A throwing service call
propagates (`Except.error`, nothing catches it); a reply that fails to
parse is caught by the `try`/`except` and degraded to
`(False, generic comment)`; a parsed reply is returned as is. -/
def openai_check_answer (call : JudgeCall) : Except Unit (Bool × String) :=
  match call with
  | JudgeCall.raise => Except.error ()
  | JudgeCall.reply none => Except.ok (false, checkFallbackComment)
  | JudgeCall.reply (some (c, m)) => Except.ok (c, m)

/-- Lines 223-245, `openai_generate_followups`.  A throwing service call
propagates; a reply that fails to parse is caught and degraded to `[]`;
a parsed reply is truncated to the first `num` items (`[:num]`). -/
def openai_generate_followups (num : Nat) (call : GenCall) : Except Unit (List String) :=
  match call with
  | GenCall.raise => Except.error ()
  | GenCall.reply none => Except.ok []
  | GenCall.reply (some xs) => Except.ok (xs.take num)

/-- Python `str.strip()` as applied at lines 447 and 475: drop leading
and trailing whitespace.  Modelled structurally on the character list
(covering the ASCII whitespace subset) so that it evaluates in the
kernel. -/
def pyStrip (s : String) : String :=
  ⟨((s.data.dropWhile Char.isWhitespace).reverse.dropWhile Char.isWhitespace).reverse⟩

/-- Python `str.isdigit()` as used at line 448: true iff the string is
non-empty and all characters are digits. -/
def pyIsDigit (s : String) : Bool := !s.data.isEmpty && s.data.all Char.isDigit

/-- Python `int(...)` on a digit string (only evaluated under the
`isdigit` guard of line 448): the base-10 value of the digits. -/
def pyInt (s : String) : Nat :=
  s.data.foldl (fun n c => n * 10 + (c.toNat - 48)) 0

/-- The query `SELECT id, title FROM topics WHERE id=?` of line 451. -/
def lookupTopic (topics : List (Nat × String)) (tid : Nat) : Option (Nat × String) :=
  topics.find? (fun p => p.1 == tid)

/-- The query `SELECT id FROM users WHERE telegram_id=?` of lines 491 and
509, returning the row id. -/
def lookupUser (users : List UserRow) (tg : Nat) : Option Nat :=
  (users.find? (fun u => u.telegram_id == tg)).map (fun u => u.id)

/-- The query `SELECT id, questions_json FROM tests WHERE topic_id=?
ORDER BY created_at DESC LIMIT 1` of line 457: the matching row with the
greatest `created_at` (first such row on ties). -/
def latestTest (tests : List TestRow) (topicId : Nat) : Option TestRow :=
  (tests.filter (fun t => t.topic_id == topicId)).foldl
    (fun acc t =>
      match acc with
      | none => some t
      | some b => if b.created_at < t.created_at then some t else some b)
    none

/-- Outgoing `message.answer` calls of the two FSM handlers, by payload. -/
inductive Msg where
  | promptDigit : Msg
  | topicNotFound : Msg
  | noTestForTopic : Msg
  | testStarts : String → String → Msg
  | nextQuestion : Nat → String → Msg
  | allCorrect : Nat → Msg
  | someWrong : Nat → List (String × List String) → Msg
deriving DecidableEq

/-- Result of `process_topic_choice`: the user's FSM state afterwards and
the messages sent.  The handler only reads the database, so the database
is not part of the result. -/
structure ChoiceOutcome where
  fsm : FsmState
  msgs : List Msg
deriving DecidableEq

/-- Result of `process_test_answer`: FSM state, database afterwards, the
follow-up generation requests issued (question, student answer, num — the
arguments of each `openai_generate_followups` call), and messages sent. -/
structure StepOutcome where
  fsm : FsmState
  db : Db
  genRequests : List (String × String × Nat)
  msgs : List Msg
deriving DecidableEq

/-- Lines 445-467, `process_topic_choice` (handler for
`TestStates.choosing_topic`).  A non-digit reply keeps the state with a
prompt; an unknown topic id keeps the state with a not-found message; a
topic without a test finishes the state (`state.finish()`, line 460)
with a message; otherwise the session data of line 465 is stored, the
first question is sent (line 466 — an IndexError on an empty question
list is `Except.error`), and the state becomes `in_test`. -/
def process_topic_choice (db : Db) (text : String) : Except Unit ChoiceOutcome :=
  if !pyIsDigit (pyStrip text) then
    Except.ok ⟨FsmState.choosingTopic, [Msg.promptDigit]⟩
  else
    match lookupTopic db.topics (pyInt (pyStrip text)) with
    | none => Except.ok ⟨FsmState.choosingTopic, [Msg.topicNotFound]⟩
    | some (topicId, title) =>
      match latestTest db.tests topicId with
      | none => Except.ok ⟨FsmState.idle, [Msg.noTestForTopic]⟩
      | some t =>
        match t.questions with
        | [] => Except.error ()
        | q0 :: _ =>
          Except.ok ⟨FsmState.inTest ⟨topicId, t.id, t.questions, 0, []⟩,
            [Msg.testStarts title q0.q]⟩

/-- Python dict assignment `followups[qtext] = extras` (line 506) on an
insertion-ordered association list: an existing key keeps its position
and gets the new value, a new key is appended. -/
def dictInsert (d : List (String × List String)) (k : String) (v : List String) :
    List (String × List String) :=
  if d.any (fun p => p.1 == k) then
    d.map (fun p => if p.1 == k then (k, v) else p)
  else
    d ++ [(k, v)]

/-- Lines 500-506: the loop `for a in answers: if not a['is_correct']:
extras = openai_generate_followups(a['q'], a['student_answer'], num=5);
followups[a['q']] = extras`, threading the `followups` dict and the log
of generation requests issued; a throwing generator call propagates. -/
def remediationLoop (gen : String → String → GenCall) :
    List AnswerRecord → List (String × List String) → List (String × String × Nat) →
    Except Unit (List (String × List String) × List (String × String × Nat))
  | [], plan, log => Except.ok (plan, log)
  | a :: rest, plan, log =>
    if a.is_correct then
      remediationLoop gen rest plan log
    else
      match openai_generate_followups 5 (gen a.q a.student_answer) with
      | Except.error e => Except.error e
      | Except.ok extras =>
          remediationLoop gen rest (dictInsert plan a.q extras)
            (log ++ [(a.q, a.student_answer, 5)])

/-- Lines 481-522, the finalization block of `process_test_answer`
(reached when the incremented index is past the last question):
`total = len(answers)`, `correct = sum(1 for a in answers if
a['is_correct'])`, `score = int(100*correct/total)` — both operands are
non-negative and far below 2^49, so the Python float division followed
by `int()` truncation equals exact floor division, embedded as `Nat`
division.  The all-correct branch (lines 488-498) inserts a progress row
and reports the score; the other branch (lines 499-522) first runs the
remediation loop, then inserts a progress row and reports score plus
follow-ups.  A missing user row (`user[0]` on `None`) or a throwing
generator call propagates as an error. -/
def finalizeSession (db : Db) (d : SessionData) (userId now : Nat)
    (answers : List AnswerRecord) (gen : String → String → GenCall) :
    Except Unit StepOutcome :=
  let total := answers.length
  let correct := (answers.filter (fun a => a.is_correct)).length
  let score := 100 * correct / total
  if correct = total then
    match lookupUser db.users userId with
    | none => Except.error ()
    | some uid =>
      Except.ok ⟨FsmState.idle,
        { db with progress := db.progress ++ [⟨uid, d.topic_id, answers, score, now⟩] },
        [], [Msg.allCorrect score]⟩
  else
    match remediationLoop gen answers [] [] with
    | Except.error e => Except.error e
    | Except.ok (plan, log) =>
      match lookupUser db.users userId with
      | none => Except.error ()
      | some uid =>
        Except.ok ⟨FsmState.idle,
          { db with progress := db.progress ++ [⟨uid, d.topic_id, answers, score, now⟩] },
          log, [Msg.someWrong score plan]⟩

/-- Lines 469-526, `process_test_answer` (handler for
`TestStates.in_test`).  The current question is read (`questions[idx]`,
an out-of-range access is an IndexError, `Except.error`), the answer is
judged via `openai_check_answer` (a throwing judge call propagates), the
answer record of line 479 is appended, the index incremented; if
questions remain, the session data is updated and the next question sent
(lines 523-526), otherwise the session is finalized (lines 481-522) and
the FSM state finished. -/
def process_test_answer (db : Db) (d : SessionData) (userId : Nat) (text : String)
    (now : Nat) (judge : JudgeCall) (gen : String → String → GenCall) :
    Except Unit StepOutcome :=
  match d.questions.get? d.current_index with
  | none => Except.error ()
  | some q =>
    match openai_check_answer judge with
    | Except.error e => Except.error e
    | Except.ok (is_correct, comment) =>
      let answers := d.answers ++ [⟨q.q, q.a, pyStrip text, is_correct, comment⟩]
      if d.questions.length ≤ d.current_index + 1 then
        finalizeSession db d userId now answers gen
      else
        match d.questions.get? (d.current_index + 1) with
        | none => Except.error ()
        | some nq =>
          Except.ok ⟨FsmState.inTest
              { d with current_index := d.current_index + 1, answers := answers },
            db, [], [Msg.nextQuestion (d.current_index + 1) nq.q]⟩

/-- Modelled from the aiogram routing of the two state-filtered plain
message handlers: `@dp.message_handler(state=TestStates.in_test)` (line
469) runs `process_test_answer`, `@dp.message_handler(state=
TestStates.choosing_topic)` (line 445) runs `process_topic_choice`
(which only reads the database and issues no generation requests), and
a plain-text message in the stateless case — the state left by
`state.finish()` after completion, or a fresh chat — matches neither of
them (the remaining handlers are command filters), so nothing runs and
nothing changes. -/
def dispatch_answer_message (db : Db) (fsm : FsmState) (userId : Nat) (text : String)
    (now : Nat) (judge : JudgeCall) (gen : String → String → GenCall) :
    Except Unit StepOutcome :=
  match fsm with
  | FsmState.inTest d => process_test_answer db d userId text now judge gen
  | FsmState.choosingTopic =>
    match process_topic_choice db text with
    | Except.error e => Except.error e
    | Except.ok out => Except.ok ⟨out.fsm, db, [], out.msgs⟩
  | FsmState.idle => Except.ok ⟨FsmState.idle, db, [], []⟩

/-- Lines 373-385 of `cmd_add_topic`: the generated question list is
checked (`if not questions:`); an empty generation result aborts with a
message and stores nothing, otherwise a `tests` row holding the
questions is inserted.  The returned Bool is whether a row was stored. -/
def cmd_add_topic_store (db : Db) (topicId : Nat) (generated : List QuestionSpec)
    (testId now : Nat) : Db × Bool :=
  if generated.isEmpty then
    (db, false)
  else
    ({ db with tests := db.tests ++ [⟨testId, topicId, generated, now⟩] }, true)

/-! ### Concrete fixtures for witnesses and counterexamples -/

/-- A two-question test fixture. -/
def sampleQuestions : List QuestionSpec := [⟨"q1", "a1"⟩, ⟨"q2", "a2"⟩]

/-- A database fixture: one topic (id 1), one test over it, one user with
row id 7 and telegram id 100, empty progress. -/
def sampleDb : Db := ⟨[(1, "Тема 1")], [⟨1, 1, sampleQuestions, 0⟩], [⟨7, 100⟩], []⟩

/-- A freshly started session over `sampleQuestions`. -/
def sampleSession : SessionData := ⟨1, 1, sampleQuestions, 0, []⟩

/-- A generator oracle that always parses to two follow-ups. -/
def genOk : String → String → GenCall := fun _ _ => GenCall.reply (some ["f1", "f2"])

/-- A generator oracle whose service call always throws. -/
def genRaise : String → String → GenCall := fun _ _ => GenCall.raise

/-- A generator oracle that always replies with unparseable output. -/
def genMalformed : String → String → GenCall := fun _ _ => GenCall.reply none

/-! ### Helper lemmas -/

/-- Any successful finalization appends exactly one progress row, whose
fields are determined by the session and answers, and finishes the FSM. -/
theorem finalize_ok_shape {db : Db} {d : SessionData} {u now : Nat}
    {answers : List AnswerRecord} {gen : String → String → GenCall} {out : StepOutcome}
    (h : finalizeSession db d u now answers gen = Except.ok out) :
    ∃ uid, lookupUser db.users u = some uid ∧
      out.fsm = FsmState.idle ∧
      out.db = { db with progress := db.progress ++
        [⟨uid, d.topic_id, answers,
          100 * (answers.filter (fun a => a.is_correct)).length / answers.length, now⟩] } := by
  by_cases hc : (answers.filter (fun a => a.is_correct)).length = answers.length
  · cases hu : lookupUser db.users u with
    | none =>
      simp only [finalizeSession, if_pos hc, hu] at h
      exact Except.noConfusion h
    | some uid =>
      simp only [finalizeSession, if_pos hc, hu] at h
      cases h
      exact ⟨uid, rfl, rfl, rfl⟩
  · cases hr : remediationLoop gen answers [] [] with
    | error e =>
      simp only [finalizeSession, if_neg hc, hr] at h
      exact Except.noConfusion h
    | ok pl =>
      obtain ⟨plan, log⟩ := pl
      cases hu : lookupUser db.users u with
      | none =>
        simp only [finalizeSession, if_neg hc, hr, hu] at h
        exact Except.noConfusion h
      | some uid =>
        simp only [finalizeSession, if_neg hc, hr, hu] at h
        cases h
        exact ⟨uid, rfl, rfl, rfl⟩

/-- Filtered-count score is at most 100 when the count is at most the total. -/
theorem score_le_100 {c n : Nat} (hc : c ≤ n) (hn : 0 < n) : 100 * c / n ≤ 100 :=
  calc 100 * c / n ≤ 100 * n / n := Nat.div_le_div_right (Nat.mul_le_mul_left 100 hc)
  _ = 100 := Nat.mul_div_cancel 100 hn

/-- Filtered-count score hits 100 exactly when every answer counted. -/
theorem score_eq_100_iff {c n : Nat} (hc : c ≤ n) (hn : 0 < n) :
    100 * c / n = 100 ↔ c = n := by
  constructor
  · intro h
    have h1 : (100 : Nat) ≤ 100 * c / n := h.ge
    have h2 : 100 * n ≤ 100 * c := (Nat.le_div_iff_mul_le hn).mp h1
    omega
  · rintro rfl
    exact Nat.mul_div_cancel 100 hn

/-- A mixed answer set: first answer judged correct, second incorrect. -/
def sampleAnswers : List AnswerRecord :=
  [⟨"q1", "a1", "x", true, "ok"⟩, ⟨"q2", "a2", "y", false, "нет"⟩]

/-- The finalization outcome on `sampleAnswers` (one of two correct):
score 50, one follow-up request, one progress row appended. -/
def sampleFinalOut : StepOutcome :=
  ⟨FsmState.idle,
    ⟨sampleDb.topics, sampleDb.tests, sampleDb.users, [⟨7, 1, sampleAnswers, 50, 3⟩]⟩,
    [("q2", "y", 5)], [Msg.someWrong 50 [("q2", ["f1", "f2"])]]⟩

/-- C1: for every completed session with `n ≥ 1` answered questions of
which `c` were judged correct, the persisted final score equals
`floor(100 * c / n)` (integer truncation, embedded as Nat floor
division; the Python float detour `int(100*c/n)` is exact for these
magnitudes), the score is at most 100 (hence in [0,100]), and it equals
100 exactly when `c = n`. -/
theorem final_score_floor_bounds (db : Db) (d : SessionData) (u now : Nat)
    (answers : List AnswerRecord) (gen : String → String → GenCall) (out : StepOutcome)
    (hne : answers ≠ [])
    (h : finalizeSession db d u now answers gen = Except.ok out) :
    ∃ rec0 : ProgressRecord, out.db.progress = db.progress ++ [rec0] ∧
      rec0.score = 100 * (answers.filter (fun a => a.is_correct)).length / answers.length ∧
      rec0.score ≤ 100 ∧
      (rec0.score = 100 ↔ (answers.filter (fun a => a.is_correct)).length = answers.length) := by
  obtain ⟨uid, -, -, hdb⟩ := finalize_ok_shape h
  have hn : 0 < answers.length := List.length_pos.mpr hne
  have hc : (answers.filter (fun a => a.is_correct)).length ≤ answers.length :=
    List.length_filter_le _ _
  exact ⟨_, by rw [hdb], rfl, score_le_100 hc hn, score_eq_100_iff hc hn⟩

/-- Witness for C1 at the concrete mixed answer set. -/
theorem final_score_floor_bounds_witness :
    ∃ rec0 : ProgressRecord, sampleFinalOut.db.progress = sampleDb.progress ++ [rec0] ∧
      rec0.score = 100 * (sampleAnswers.filter (fun a => a.is_correct)).length / sampleAnswers.length ∧
      rec0.score ≤ 100 ∧
      (rec0.score = 100 ↔
        (sampleAnswers.filter (fun a => a.is_correct)).length = sampleAnswers.length) :=
  final_score_floor_bounds sampleDb sampleSession 100 3 sampleAnswers genOk sampleFinalOut
    (by decide) (by rfl)

/-- C2 counterexample: when the judge service itself fails to produce a
response (the `openai.ChatCompletion.create` call at line 204 throws),
`openai_check_answer` does NOT return `(false, generic comment)` — the
exception propagates out of the wrapper and out of the controller
handler, because the `try` block of lines 212-217 covers only the
parsing of an obtained response. -/
theorem judge_service_failure_raises :
    openai_check_answer JudgeCall.raise = Except.error () ∧
    process_test_answer sampleDb sampleSession 100 "x" 3 JudgeCall.raise genOk =
      Except.error () :=
  ⟨rfl, rfl⟩

/-- C2 (amended): when the judge's response does not parse into the
expected structure, the result is `correct = false` with the generic
"unable to automatically verify" comment, no error reaches the
controller, and the session records the answer and continues to the next
question; a failure of the judge service to produce any response, by
contrast, propagates as an exception (see the counterexample). -/
theorem judge_parse_failure_degrades (db : Db) (d : SessionData) (u : Nat) (text : String)
    (now : Nat) (gen : String → String → GenCall) (q : QuestionSpec)
    (hq : d.questions.get? d.current_index = some q)
    (hlt : d.current_index + 1 < d.questions.length) :
    openai_check_answer (JudgeCall.reply none) = Except.ok (false, checkFallbackComment) ∧
    ∃ nq : QuestionSpec, d.questions.get? (d.current_index + 1) = some nq ∧
      process_test_answer db d u text now (JudgeCall.reply none) gen =
        Except.ok ⟨FsmState.inTest
            { d with
              current_index := d.current_index + 1
              answers := d.answers ++ [⟨q.q, q.a, pyStrip text, false, checkFallbackComment⟩] },
          db, [], [Msg.nextQuestion (d.current_index + 1) nq.q]⟩ := by
  refine ⟨rfl, ?_⟩
  cases hnq : d.questions.get? (d.current_index + 1) with
  | none =>
    rw [List.get?_eq_none] at hnq
    omega
  | some nq =>
    refine ⟨nq, rfl, ?_⟩
    have hcond : ¬ (d.questions.length ≤ d.current_index + 1) := by omega
    simp only [process_test_answer, hq, openai_check_answer, if_neg hcond, hnq]

/-- Witness for the amended C2 on the two-question fixture. -/
theorem judge_parse_failure_degrades_witness :
    openai_check_answer (JudgeCall.reply none) = Except.ok (false, checkFallbackComment) ∧
    ∃ nq : QuestionSpec,
      sampleSession.questions.get? (sampleSession.current_index + 1) = some nq ∧
      process_test_answer sampleDb sampleSession 100 "привет" 3 (JudgeCall.reply none) genOk =
        Except.ok ⟨FsmState.inTest
            { sampleSession with
              current_index := sampleSession.current_index + 1
              answers := sampleSession.answers ++
                [⟨(⟨"q1", "a1"⟩ : QuestionSpec).q, (⟨"q1", "a1"⟩ : QuestionSpec).a,
                  pyStrip "привет", false, checkFallbackComment⟩] },
          sampleDb, [],
          [Msg.nextQuestion (sampleSession.current_index + 1) nq.q]⟩ :=
  judge_parse_failure_degrades sampleDb sampleSession 100 "привет" 3 genOk ⟨"q1", "a1"⟩
    (by rfl) (by decide)

/-- Case analysis of a successful `process_test_answer` step: the current
question resolves, the judge returns, the answer record of line 479 is
appended, and either the step finalizes (last question) or moves to the
next question. -/
theorem step_ok_cases {db : Db} {d : SessionData} {u : Nat} {text : String} {now : Nat}
    {judge : JudgeCall} {gen : String → String → GenCall} {out : StepOutcome}
    (h : process_test_answer db d u text now judge gen = Except.ok out) :
    ∃ q c m, d.questions.get? d.current_index = some q ∧
      openai_check_answer judge = Except.ok (c, m) ∧
      ((d.questions.length ≤ d.current_index + 1 ∧
          finalizeSession db d u now (d.answers ++ [⟨q.q, q.a, pyStrip text, c, m⟩]) gen =
            Except.ok out) ∨
        (d.current_index + 1 < d.questions.length ∧
          ∃ nq, d.questions.get? (d.current_index + 1) = some nq ∧
            out = ⟨FsmState.inTest
                { d with
                  current_index := d.current_index + 1
                  answers := d.answers ++ [⟨q.q, q.a, pyStrip text, c, m⟩] },
              db, [], [Msg.nextQuestion (d.current_index + 1) nq.q]⟩)) := by
  cases hq : d.questions.get? d.current_index with
  | none =>
    simp only [process_test_answer, hq] at h
    exact Except.noConfusion h
  | some q =>
    cases hj : openai_check_answer judge with
    | error e =>
      simp only [process_test_answer, hq, hj] at h
      exact Except.noConfusion h
    | ok p =>
      obtain ⟨c, m⟩ := p
      by_cases hlen : d.questions.length ≤ d.current_index + 1
      · refine ⟨q, c, m, rfl, rfl, Or.inl ⟨hlen, ?_⟩⟩
        simp only [process_test_answer, hq, hj, if_pos hlen] at h
        exact h
      · cases hnq : d.questions.get? (d.current_index + 1) with
        | none =>
          rw [List.get?_eq_none] at hnq
          omega
        | some nq =>
          simp only [process_test_answer, hq, hj, if_neg hlen, hnq] at h
          cases h
          exact ⟨q, c, m, rfl, rfl, Or.inr ⟨by omega, nq, rfl, rfl⟩⟩

/-- A session standing at the last (second) question, the first already
answered correctly. -/
def sampleSessionLast : SessionData := ⟨1, 1, sampleQuestions, 1, [⟨"q1", "a1", "x", true, "ok"⟩]⟩

/-- The outcome of answering the last question of `sampleSessionLast`
correctly: all-correct finalization, score 100. -/
def sampleCompleteOut : StepOutcome :=
  ⟨FsmState.idle,
    ⟨sampleDb.topics, sampleDb.tests, sampleDb.users,
      [⟨7, 1, [⟨"q1", "a1", "x", true, "ok"⟩, ⟨"q2", "a2", "y", true, "ok"⟩], 100, 3⟩]⟩,
    [], [Msg.allCorrect 100]⟩

/-- The outcome of answering the first question of `sampleSession`
correctly: advance to question 2. -/
def sampleMidOut : StepOutcome :=
  ⟨FsmState.inTest sampleSessionLast, sampleDb, [], [Msg.nextQuestion 1 "q2"]⟩

/-- C3: a step that completes the session (the incremented index reaches
the question count) appends exactly one ProgressRecord — holding the
resolved user id, the session's topic id, the full answer sequence of
the attempt (the prior answers plus the just-judged one), and the
timestamp — to the end of the progress store, in both the pass and the
fail branch alike; prior records are preserved, and a non-completing
step appends nothing. -/
theorem completion_appends_single_progress_record (db : Db) (d : SessionData) (u : Nat)
    (text : String) (now : Nat) (judge : JudgeCall) (gen : String → String → GenCall)
    (out : StepOutcome)
    (h : process_test_answer db d u text now judge gen = Except.ok out) :
    (d.questions.length ≤ d.current_index + 1 →
      ∃ uid rec0, lookupUser db.users u = some uid ∧
        out.db.progress = db.progress ++ [rec0] ∧
        rec0.user_id = uid ∧ rec0.topic_id = d.topic_id ∧ rec0.updated_at = now ∧
        ∃ last, rec0.result = d.answers ++ [last]) ∧
    (d.current_index + 1 < d.questions.length → out.db = db) := by
  obtain ⟨q, c, m, hq, hj, hcase⟩ := step_ok_cases h
  constructor
  · intro hlen
    rcases hcase with ⟨-, hfin⟩ | ⟨hlt, -⟩
    · obtain ⟨uid, hu, -, hdb⟩ := finalize_ok_shape hfin
      exact ⟨uid, _, hu, by rw [hdb], rfl, rfl, rfl, ⟨q.q, q.a, pyStrip text, c, m⟩, rfl⟩
    · omega
  · intro hlt
    rcases hcase with ⟨hlen, -⟩ | ⟨-, nq, -, hout⟩
    · omega
    · rw [hout]

/-- Witness for C3: completing the two-question fixture test. -/
theorem completion_appends_single_progress_record_witness :
    (sampleSessionLast.questions.length ≤ sampleSessionLast.current_index + 1 →
      ∃ uid rec0, lookupUser sampleDb.users 100 = some uid ∧
        sampleCompleteOut.db.progress = sampleDb.progress ++ [rec0] ∧
        rec0.user_id = uid ∧ rec0.topic_id = sampleSessionLast.topic_id ∧
        rec0.updated_at = 3 ∧
        ∃ last, rec0.result = sampleSessionLast.answers ++ [last]) ∧
    (sampleSessionLast.current_index + 1 < sampleSessionLast.questions.length →
      sampleCompleteOut.db = sampleDb) :=
  completion_appends_single_progress_record sampleDb sampleSessionLast 100 "y" 3
    (JudgeCall.reply (some (true, "ok"))) genOk sampleCompleteOut (by rfl)

/-- C6: a completing step leaves the user's FSM state finished
(`state.finish()`, the stateless `idle`), and a subsequent plain-text
submission in that finished state matches no handler: it is rejected
without running `process_test_answer`, leaving the FSM state, the
database — in particular the progress store — unchanged, and sending
nothing, so no duplicate ProgressRecord can be appended. -/
theorem submit_after_completion_noop :
    (∀ (db : Db) (d : SessionData) (u : Nat) (text : String) (now : Nat)
        (judge : JudgeCall) (gen : String → String → GenCall) (out : StepOutcome),
        process_test_answer db d u text now judge gen = Except.ok out →
        d.questions.length ≤ d.current_index + 1 →
        out.fsm = FsmState.idle) ∧
    (∀ (db : Db) (u : Nat) (text : String) (now : Nat)
        (judge : JudgeCall) (gen : String → String → GenCall),
        dispatch_answer_message db FsmState.idle u text now judge gen =
          Except.ok ⟨FsmState.idle, db, [], []⟩) := by
  constructor
  · intro db d u text now judge gen out h hlen
    obtain ⟨q, c, m, -, -, hcase⟩ := step_ok_cases h
    rcases hcase with ⟨-, hfin⟩ | ⟨hlt, -⟩
    · obtain ⟨uid, -, hfsm, -⟩ := finalize_ok_shape hfin
      exact hfsm
    · omega
  · intro db u text now judge gen
    rfl

/-- Witness for C6: the completed fixture run finishes the state, and a
further message in the finished state is a no-op. -/
theorem submit_after_completion_noop_witness :
    sampleCompleteOut.fsm = FsmState.idle ∧
    dispatch_answer_message sampleDb FsmState.idle 100 "again" 4
      (JudgeCall.reply (some (true, "ok"))) genOk =
      Except.ok ⟨FsmState.idle, sampleDb, [], []⟩ :=
  ⟨submit_after_completion_noop.1 sampleDb sampleSessionLast 100 "y" 3
      (JudgeCall.reply (some (true, "ok"))) genOk sampleCompleteOut (by rfl) (by decide),
    submit_after_completion_noop.2 sampleDb 100 "again" 4
      (JudgeCall.reply (some (true, "ok"))) genOk⟩

/-- C7: a freshly created session starts at index 0 with no answers (and
its index is within the question list); and a successful submission that
leaves the session in progress appends exactly one AnswerRecord, keeps
the question list, advances the index by exactly 1, and re-establishes
`len(answers) = currentIndex ≤ len(questions)`. -/
theorem session_index_invariant :
    (∀ (db : Db) (text : String) (out : ChoiceOutcome) (d : SessionData),
        process_topic_choice db text = Except.ok out →
        out.fsm = FsmState.inTest d →
        d.current_index = 0 ∧ d.answers = [] ∧ d.current_index < d.questions.length) ∧
    (∀ (db : Db) (d : SessionData) (u : Nat) (text : String) (now : Nat)
        (judge : JudgeCall) (gen : String → String → GenCall) (out : StepOutcome),
        d.answers.length = d.current_index →
        process_test_answer db d u text now judge gen = Except.ok out →
        ∀ d', out.fsm = FsmState.inTest d' →
          d'.answers.length = d'.current_index ∧
          d'.current_index ≤ d'.questions.length ∧
          d'.questions = d.questions ∧
          d'.current_index = d.current_index + 1 ∧
          ∃ rec0, d'.answers = d.answers ++ [rec0]) := by
  constructor
  · intro db text out d h hfsm
    cases hd : pyIsDigit (pyStrip text) with
    | false =>
      simp only [process_topic_choice, hd, Bool.not_false, if_true] at h
      cases h
      exact FsmState.noConfusion hfsm
    | true =>
      cases htp : lookupTopic db.topics (pyInt (pyStrip text)) with
      | none =>
        simp only [process_topic_choice, hd, Bool.not_true, if_false, htp] at h
        cases h
        exact FsmState.noConfusion hfsm
      | some p =>
        obtain ⟨tid, title⟩ := p
        cases hlt : latestTest db.tests tid with
        | none =>
          simp only [process_topic_choice, hd, Bool.not_true, if_false, htp, hlt] at h
          cases h
          exact FsmState.noConfusion hfsm
        | some t =>
          cases htq : t.questions with
          | nil =>
            simp only [process_topic_choice, hd, Bool.not_true, if_false, htp, hlt, htq] at h
            exact Except.noConfusion h
          | cons q0 rest =>
            simp only [process_topic_choice, hd, Bool.not_true, if_false, htp, hlt, htq] at h
            cases h
            cases hfsm
            refine ⟨rfl, rfl, ?_⟩
            simp
  · intro db d u text now judge gen out hinv h d' hfsm
    obtain ⟨q, c, m, hq, hj, hcase⟩ := step_ok_cases h
    rcases hcase with ⟨-, hfin⟩ | ⟨hlt, nq, -, hout⟩
    · obtain ⟨uid, -, hidle, -⟩ := finalize_ok_shape hfin
      rw [hidle] at hfsm
      exact FsmState.noConfusion hfsm
    · rw [hout] at hfsm
      cases hfsm
      refine ⟨?_, by simpa using Nat.le_of_lt hlt, rfl, rfl,
        ⟨q.q, q.a, pyStrip text, c, m⟩, rfl⟩
      simp [hinv]

/-- Witness for C7: creation of the fixture session and one mid-test
step on it. -/
theorem session_index_invariant_witness :
    (sampleSession.current_index = 0 ∧ sampleSession.answers = [] ∧
      sampleSession.current_index < sampleSession.questions.length) ∧
    (sampleSessionLast.answers.length = sampleSessionLast.current_index ∧
      sampleSessionLast.current_index ≤ sampleSessionLast.questions.length ∧
      sampleSessionLast.questions = sampleSession.questions ∧
      sampleSessionLast.current_index = sampleSession.current_index + 1 ∧
      ∃ rec0, sampleSessionLast.answers = sampleSession.answers ++ [rec0]) :=
  ⟨session_index_invariant.1 sampleDb "1"
      ⟨FsmState.inTest sampleSession, [Msg.testStarts "Тема 1" "q1"]⟩ sampleSession
      (by rfl) (by rfl),
    session_index_invariant.2 sampleDb sampleSession 100 "x" 3
      (JudgeCall.reply (some (true, "ok"))) genOk sampleMidOut (by rfl) (by rfl)
      sampleSessionLast (by rfl)⟩

/-- The key just written by `dictInsert` has an entry afterwards. -/
theorem dictInsert_hasKey_self (d : List (String × List String)) (k : String)
    (v : List String) :
    ∃ w, (k, w) ∈ dictInsert d k v := by
  unfold dictInsert
  split
  · rename_i hany
    rw [List.any_eq_true] at hany
    obtain ⟨p, hp, hpk⟩ := hany
    refine ⟨v, ?_⟩
    have himg := List.mem_map_of_mem (fun p => if p.1 == k then (k, v) else p) hp
    dsimp only at himg
    rw [if_pos hpk] at himg
    exact himg
  · exact ⟨v, List.mem_append_right _ (List.mem_singleton.mpr rfl)⟩

/-- `dictInsert` preserves the presence of every existing key. -/
theorem dictInsert_hasKey_mono {d : List (String × List String)} {k0 : String}
    (h : ∃ w, (k0, w) ∈ d) (k : String) (v : List String) :
    ∃ w, (k0, w) ∈ dictInsert d k v := by
  obtain ⟨w, hw⟩ := h
  unfold dictInsert
  split
  · have himg := List.mem_map_of_mem (fun p => if p.1 == k then (k, v) else p) hw
    dsimp only at himg
    by_cases hk : (k0 == k) = true
    · rw [if_pos hk] at himg
      have hkk : k0 = k := eq_of_beq hk
      subst hkk
      exact ⟨v, himg⟩
    · rw [if_neg hk] at himg
      exact ⟨w, himg⟩
  · exact ⟨w, List.mem_append_left _ hw⟩

/-- `dictInsert` preserves any property of the stored values that the
inserted value also has. -/
theorem dictInsert_vals (P : List String → Prop) {d : List (String × List String)}
    (hd : ∀ p ∈ d, P p.2) {v : List String} (hv : P v) (k : String) :
    ∀ p ∈ dictInsert d k v, P p.2 := by
  intro p hp
  unfold dictInsert at hp
  split at hp
  · rw [List.mem_map] at hp
    obtain ⟨p0, hp0, heq⟩ := hp
    by_cases hk : (p0.1 == k) = true
    · rw [if_pos hk] at heq
      subst heq
      exact hv
    · rw [if_neg hk] at heq
      subst heq
      exact hd p0 hp0
  · rcases List.mem_append.mp hp with h1 | h2
    · exact hd p h1
    · rw [List.mem_singleton] at h2
      subst h2
      exact hv

/-- Characterization of the remediation loop under a generator whose
service call never throws: the loop returns, appends to the log exactly
one request `(question, student answer, 5)` per incorrect record in
order, keeps every plan value at length at most 5, preserves existing
plan keys, and gives every incorrect record's question a plan entry. -/
theorem remediationLoop_spec (gen : String → String → GenCall)
    (hg : ∀ q sa, gen q sa ≠ GenCall.raise) (answers : List AnswerRecord) :
    ∀ (plan0 : List (String × List String)) (log0 : List (String × String × Nat)),
      (∀ p ∈ plan0, p.2.length ≤ 5) →
      ∃ plan, remediationLoop gen answers plan0 log0 =
          Except.ok (plan, log0 ++ (answers.filter (fun a => !a.is_correct)).map
            (fun a => (a.q, a.student_answer, 5))) ∧
        (∀ p ∈ plan, p.2.length ≤ 5) ∧
        (∀ k, (∃ w, (k, w) ∈ plan0) → ∃ w, (k, w) ∈ plan) ∧
        (∀ a ∈ answers, a.is_correct = false → ∃ w, (a.q, w) ∈ plan) := by
  induction answers with
  | nil =>
    intro plan0 log0 hb
    exact ⟨plan0, by simp [remediationLoop], hb, fun k h => h, by simp⟩
  | cons a rest ih =>
    intro plan0 log0 hb
    by_cases hc : a.is_correct
    · obtain ⟨plan, hrun, hbd, hmono, hkeys⟩ := ih plan0 log0 hb
      refine ⟨plan, ?_, hbd, hmono, ?_⟩
      · simp only [remediationLoop, if_pos hc]
        simpa [hc] using hrun
      · intro b hb2 hbc
        rcases List.mem_cons.mp hb2 with rfl | hbr
        · rw [hbc] at hc
          exact absurd hc (by simp)
        · exact hkeys b hbr hbc
    · have hgen := hg a.q a.student_answer
      cases hgc : gen a.q a.student_answer with
      | raise => exact absurd hgc hgen
      | reply popt =>
        have hextras : ∃ extras, openai_generate_followups 5 (GenCall.reply popt) =
            Except.ok extras ∧ extras.length ≤ 5 := by
          cases popt with
          | none => exact ⟨[], rfl, by simp⟩
          | some xs =>
            refine ⟨xs.take 5, rfl, ?_⟩
            simp
        obtain ⟨extras, hopen, hlen5⟩ := hextras
        obtain ⟨plan, hrun, hbd, hmono, hkeys⟩ :=
          ih (dictInsert plan0 a.q extras) (log0 ++ [(a.q, a.student_answer, 5)])
            (dictInsert_vals (fun v => v.length ≤ 5) hb hlen5 a.q)
        refine ⟨plan, ?_, hbd, ?_, ?_⟩
        · simp only [remediationLoop, if_neg hc, hgc, hopen]
          rw [hrun]
          simp [hc, List.append_assoc]
        · intro k hk
          exact hmono k (dictInsert_hasKey_mono hk a.q extras)
        · intro b hb2 hbc
          rcases List.mem_cons.mp hb2 with rfl | hbr
          · exact hmono b.q (dictInsert_hasKey_self plan0 b.q extras)
          · exact hkeys b hbr hbc

/-- C4: at finalization under a generator whose service call does not
throw, if not all answers were judged correct then the issued follow-up
generation requests are exactly one request `(question, submitted
answer, requested count = 5)` per incorrect AnswerRecord, in order, and
the remediation plan sent with the score has an entry (of at most 5
follow-ups, possibly empty) for each incorrect record's question; if all
answers were judged correct, no generation request is issued and the
completion message carries no remediation plan. -/
theorem remediation_requests_match_incorrect (db : Db) (d : SessionData) (u now : Nat)
    (answers : List AnswerRecord) (gen : String → String → GenCall) (out : StepOutcome)
    (hg : ∀ q sa, gen q sa ≠ GenCall.raise)
    (h : finalizeSession db d u now answers gen = Except.ok out) :
    ((answers.filter (fun a => a.is_correct)).length = answers.length →
      out.genRequests = [] ∧
      out.msgs = [Msg.allCorrect
        (100 * (answers.filter (fun a => a.is_correct)).length / answers.length)]) ∧
    ((answers.filter (fun a => a.is_correct)).length < answers.length →
      out.genRequests =
        (answers.filter (fun a => !a.is_correct)).map (fun a => (a.q, a.student_answer, 5)) ∧
      ∃ plan, out.msgs = [Msg.someWrong
          (100 * (answers.filter (fun a => a.is_correct)).length / answers.length) plan] ∧
        (∀ p ∈ plan, p.2.length ≤ 5) ∧
        (∀ a ∈ answers, a.is_correct = false → ∃ w, (a.q, w) ∈ plan)) := by
  by_cases hc : (answers.filter (fun a => a.is_correct)).length = answers.length
  · cases hu : lookupUser db.users u with
    | none =>
      simp only [finalizeSession, if_pos hc, hu] at h
      exact Except.noConfusion h
    | some uid =>
      simp only [finalizeSession, if_pos hc, hu] at h
      cases h
      exact ⟨fun _ => ⟨rfl, rfl⟩, fun hlt => absurd hc (by omega)⟩
  · obtain ⟨plan, hrun, hbd, -, hkeys⟩ := remediationLoop_spec gen hg answers [] [] (by simp)
    cases hu : lookupUser db.users u with
    | none =>
      simp only [finalizeSession, if_neg hc, hrun, hu] at h
      exact Except.noConfusion h
    | some uid =>
      simp only [finalizeSession, if_neg hc, hrun, hu] at h
      cases h
      refine ⟨fun heq => absurd heq hc, fun _ => ⟨by simp, plan, rfl, hbd, hkeys⟩⟩

/-- Witness for C4 at the mixed fixture finalization. -/
theorem remediation_requests_match_incorrect_witness :
    ((sampleAnswers.filter (fun a => a.is_correct)).length = sampleAnswers.length →
      sampleFinalOut.genRequests = [] ∧
      sampleFinalOut.msgs = [Msg.allCorrect
        (100 * (sampleAnswers.filter (fun a => a.is_correct)).length / sampleAnswers.length)]) ∧
    ((sampleAnswers.filter (fun a => a.is_correct)).length < sampleAnswers.length →
      sampleFinalOut.genRequests =
        (sampleAnswers.filter (fun a => !a.is_correct)).map
          (fun a => (a.q, a.student_answer, 5)) ∧
      ∃ plan, sampleFinalOut.msgs = [Msg.someWrong
          (100 * (sampleAnswers.filter (fun a => a.is_correct)).length / sampleAnswers.length)
          plan] ∧
        (∀ p ∈ plan, p.2.length ≤ 5) ∧
        (∀ a ∈ sampleAnswers, a.is_correct = false → ∃ w, (a.q, w) ∈ plan)) :=
  remediation_requests_match_incorrect sampleDb sampleSession 100 3 sampleAnswers genOk
    sampleFinalOut (fun q sa h => GenCall.noConfusion h) (by rfl)

/-- C5 counterexample: if the follow-up generator service call throws on
an incorrect answer (line 231 is outside the `try`), finalization does
NOT continue — the handler aborts with the exception, before the
progress INSERT of lines 512-513 and before the score message of lines
515-520, so nothing is persisted or reported. -/
theorem generator_raise_aborts_finalization :
    process_test_answer sampleDb sampleSessionLast 100 "z" 3
      (JudgeCall.reply (some (false, "нет"))) genRaise = Except.error () := by rfl

/-- The remediation loop under an always-malformed generator returns,
with every plan value empty. -/
theorem remediationLoop_malformed (gen : String → String → GenCall)
    (hg : ∀ q sa, gen q sa = GenCall.reply none) (answers : List AnswerRecord) :
    ∀ (plan0 : List (String × List String)) (log0 : List (String × String × Nat)),
      (∀ p ∈ plan0, p.2 = ([] : List String)) →
      ∃ plan log, remediationLoop gen answers plan0 log0 = Except.ok (plan, log) ∧
        ∀ p ∈ plan, p.2 = ([] : List String) := by
  induction answers with
  | nil =>
    intro plan0 log0 hb
    exact ⟨plan0, log0, by simp [remediationLoop], hb⟩
  | cons a rest ih =>
    intro plan0 log0 hb
    by_cases hc : a.is_correct
    · obtain ⟨plan, log, hrun, hpb⟩ := ih plan0 log0 hb
      refine ⟨plan, log, ?_, hpb⟩
      simp only [remediationLoop, if_pos hc]
      exact hrun
    · obtain ⟨plan, log, hrun, hpb⟩ :=
        ih (dictInsert plan0 a.q []) (log0 ++ [(a.q, a.student_answer, 5)])
          (dictInsert_vals (fun v => v = []) hb rfl a.q)
      refine ⟨plan, log, ?_, hpb⟩
      simp only [remediationLoop, if_neg hc, hg a.q a.student_answer,
        openai_generate_followups]
      exact hrun

/-- C5 (amended): if the follow-up generator returns malformed output
for the incorrect answers, each affected question maps to an empty
follow-up sequence and finalization still continues — the score message
is sent and the ProgressRecord is persisted; if however the generator
service call itself throws, finalization aborts before persisting (see
the counterexample). -/
theorem generator_malformed_empty_followups (db : Db) (d : SessionData) (u now uid : Nat)
    (answers : List AnswerRecord) (gen : String → String → GenCall)
    (_hne : answers ≠ [])
    (hu : lookupUser db.users u = some uid)
    (hg : ∀ q sa, gen q sa = GenCall.reply none) :
    ∃ out, finalizeSession db d u now answers gen = Except.ok out ∧
      out.db.progress = db.progress ++
        [⟨uid, d.topic_id, answers,
          100 * (answers.filter (fun a => a.is_correct)).length / answers.length, now⟩] ∧
      ((∃ s, out.msgs = [Msg.allCorrect s]) ∨
        ∃ s plan, out.msgs = [Msg.someWrong s plan] ∧ ∀ p ∈ plan, p.2 = ([] : List String)) := by
  by_cases hc : (answers.filter (fun a => a.is_correct)).length = answers.length
  · refine ⟨⟨FsmState.idle,
        { db with progress := db.progress ++
            [⟨uid, d.topic_id, answers,
              100 * (answers.filter (fun a => a.is_correct)).length / answers.length, now⟩] },
        [], [Msg.allCorrect
          (100 * (answers.filter (fun a => a.is_correct)).length / answers.length)]⟩,
      ?_, rfl, Or.inl ⟨_, rfl⟩⟩
    simp only [finalizeSession, if_pos hc, hu]
  · obtain ⟨plan, log, hrun, hpb⟩ := remediationLoop_malformed gen hg answers [] [] (by simp)
    refine ⟨⟨FsmState.idle,
        { db with progress := db.progress ++
            [⟨uid, d.topic_id, answers,
              100 * (answers.filter (fun a => a.is_correct)).length / answers.length, now⟩] },
        log, [Msg.someWrong
          (100 * (answers.filter (fun a => a.is_correct)).length / answers.length) plan]⟩,
      ?_, rfl, Or.inr ⟨_, plan, rfl, hpb⟩⟩
    simp only [finalizeSession, if_neg hc, hrun, hu]

/-- Witness for the amended C5 at the mixed fixture with an
always-malformed generator. -/
theorem generator_malformed_empty_followups_witness :
    ∃ out, finalizeSession sampleDb sampleSession 100 3 sampleAnswers genMalformed =
        Except.ok out ∧
      out.db.progress = sampleDb.progress ++
        [⟨7, sampleSession.topic_id, sampleAnswers,
          100 * (sampleAnswers.filter (fun a => a.is_correct)).length / sampleAnswers.length,
          3⟩] ∧
      ((∃ s, out.msgs = [Msg.allCorrect s]) ∨
        ∃ s plan, out.msgs = [Msg.someWrong s plan] ∧ ∀ p ∈ plan, p.2 = ([] : List String)) :=
  generator_malformed_empty_followups sampleDb sampleSession 100 3 7 sampleAnswers
    genMalformed (by decide) (by rfl) (fun q sa => rfl)

/-- C8: a topic-choice reply whose (digit) id matches no topic row is
answered with a not-found message and leaves the user still choosing;
a topic that exists but has no test row is answered with a message and
finishes the choosing state.  In both cases no Session is created — the
resulting FSM state carries no session — and nothing is written. -/
theorem unknown_topic_no_session (db : Db) (text : String)
    (hd : pyIsDigit (pyStrip text) = true) :
    (lookupTopic db.topics (pyInt (pyStrip text)) = none →
      process_topic_choice db text =
        Except.ok ⟨FsmState.choosingTopic, [Msg.topicNotFound]⟩ ∧
      sessionOf FsmState.choosingTopic = none) ∧
    (∀ tid title, lookupTopic db.topics (pyInt (pyStrip text)) = some (tid, title) →
      latestTest db.tests tid = none →
      process_topic_choice db text =
        Except.ok ⟨FsmState.idle, [Msg.noTestForTopic]⟩ ∧
      sessionOf FsmState.idle = none) := by
  constructor
  · intro htp
    constructor
    · simp [process_topic_choice, hd, htp]
    · rfl
  · intro tid title htp hlt
    constructor
    · simp [process_topic_choice, hd, htp, hlt]
    · rfl

/-- Witness for C8: the fixture store has no topic 99. -/
theorem unknown_topic_no_session_witness :
    process_topic_choice sampleDb "99" =
      Except.ok ⟨FsmState.choosingTopic, [Msg.topicNotFound]⟩ ∧
    sessionOf FsmState.choosingTopic = none :=
  (unknown_topic_no_session sampleDb "99" (by rfl)).1 (by rfl)

/-- The outcome of submitting " 42 " on the first fixture question: the
stored student answer is the stripped text "42". -/
def sampleStrippedOut : StepOutcome :=
  ⟨FsmState.inTest ⟨1, 1, sampleQuestions, 1, [⟨"q1", "a1", "42", true, "ok"⟩]⟩,
    sampleDb, [], [Msg.nextQuestion 1 "q2"]⟩

/-- C9 counterexample: the submitted text " 42 " (with surrounding
spaces) is stored in the AnswerRecord as "42" — `process_test_answer`
applies `str.strip()` at line 475 before recording, so the stored
answer text is not exactly the text as submitted. -/
theorem student_answer_stripped_counterexample :
    process_test_answer sampleDb sampleSession 100 " 42 " 3
      (JudgeCall.reply (some (true, "ok"))) genOk = Except.ok sampleStrippedOut ∧
    sampleStrippedOut = ⟨FsmState.inTest ⟨1, 1, sampleQuestions, 1,
        [⟨"q1", "a1", "42", true, "ok"⟩]⟩,
      sampleDb, [], [Msg.nextQuestion 1 "q2"]⟩ ∧
    "42" ≠ " 42 " :=
  ⟨by rfl, rfl, by decide⟩

/-- C9 (amended): the AnswerRecord appended by a submission stores the
submitted text with leading and trailing whitespace stripped
(`str.strip()`), together with the question prompt, reference answer,
correctness boolean and judge commentary; it is appended after the
existing records, which are preserved unchanged, both in the in-progress
session and in the persisted result of a completing step. -/
theorem answer_record_stores_stripped_text (db : Db) (d : SessionData) (u : Nat)
    (text : String) (now : Nat) (judge : JudgeCall) (gen : String → String → GenCall)
    (out : StepOutcome) (c : Bool) (m : String) (q : QuestionSpec)
    (hq : d.questions.get? d.current_index = some q)
    (hj : openai_check_answer judge = Except.ok (c, m))
    (h : process_test_answer db d u text now judge gen = Except.ok out) :
    (∀ d', out.fsm = FsmState.inTest d' →
      d'.answers = d.answers ++ [⟨q.q, q.a, pyStrip text, c, m⟩]) ∧
    (out.fsm = FsmState.idle →
      ∃ rec0, out.db.progress = db.progress ++ [rec0] ∧
        rec0.result = d.answers ++ [⟨q.q, q.a, pyStrip text, c, m⟩]) := by
  obtain ⟨q2, c2, m2, hq2, hj2, hcase⟩ := step_ok_cases h
  rw [hq] at hq2
  injection hq2 with hq2
  subst hq2
  rw [hj] at hj2
  injection hj2 with hj2
  injection hj2 with hjc hjm
  subst hjc
  subst hjm
  constructor
  · intro d' hfsm
    rcases hcase with ⟨-, hfin⟩ | ⟨-, nq, -, hout⟩
    · obtain ⟨uid, -, hidle, -⟩ := finalize_ok_shape hfin
      rw [hidle] at hfsm
      exact FsmState.noConfusion hfsm
    · rw [hout] at hfsm
      cases hfsm
      rfl
  · intro hidle
    rcases hcase with ⟨-, hfin⟩ | ⟨-, nq, -, hout⟩
    · obtain ⟨uid, -, -, hdb⟩ := finalize_ok_shape hfin
      exact ⟨_, by rw [hdb], rfl⟩
    · rw [hout] at hidle
      exact FsmState.noConfusion hidle

/-- Witness for the amended C9 on the " 42 " submission. -/
theorem answer_record_stores_stripped_text_witness :
    (∀ d', sampleStrippedOut.fsm = FsmState.inTest d' →
      d'.answers = sampleSession.answers ++
        [⟨(⟨"q1", "a1"⟩ : QuestionSpec).q, (⟨"q1", "a1"⟩ : QuestionSpec).a,
          pyStrip " 42 ", true, "ok"⟩]) ∧
    (sampleStrippedOut.fsm = FsmState.idle →
      ∃ rec0, sampleStrippedOut.db.progress = sampleDb.progress ++ [rec0] ∧
        rec0.result = sampleSession.answers ++
          [⟨(⟨"q1", "a1"⟩ : QuestionSpec).q, (⟨"q1", "a1"⟩ : QuestionSpec).a,
            pyStrip " 42 ", true, "ok"⟩]) :=
  answer_record_stores_stripped_text sampleDb sampleSession 100 " 42 " 3
    (JudgeCall.reply (some (true, "ok"))) genOk sampleStrippedOut true "ok" ⟨"q1", "a1"⟩
    (by rfl) (by rfl) (by rfl)

/-- C10: topic creation refuses to store a test whose generated question
list is empty, so a store whose tests all have non-empty question lists
keeps that property across `cmd_add_topic`; every session actually
started by `process_topic_choice` has a non-empty question list; and at
every completing step the divisor of the score computation — the length
of the recorded answer sequence — is positive, so the division
`100 * correct / total` never divides by zero. -/
theorem stored_tests_nonempty_no_div_zero :
    (∀ (db : Db) (tid : Nat) (generated : List QuestionSpec) (testId now : Nat),
        (∀ t ∈ db.tests, t.questions ≠ []) →
        ∀ t ∈ (cmd_add_topic_store db tid generated testId now).1.tests,
          t.questions ≠ []) ∧
    (∀ (db : Db) (text : String) (out : ChoiceOutcome) (d : SessionData),
        process_topic_choice db text = Except.ok out →
        out.fsm = FsmState.inTest d → d.questions ≠ []) ∧
    (∀ (db : Db) (d : SessionData) (u : Nat) (text : String) (now : Nat)
        (judge : JudgeCall) (gen : String → String → GenCall) (out : StepOutcome),
        process_test_answer db d u text now judge gen = Except.ok out →
        out.fsm = FsmState.idle →
        ∃ rec0, out.db.progress = db.progress ++ [rec0] ∧ 0 < rec0.result.length) := by
  refine ⟨?_, ?_, ?_⟩
  · intro db tid generated testId now hdb t ht
    by_cases hg : generated.isEmpty
    · simp only [cmd_add_topic_store, if_pos hg] at ht
      exact hdb t ht
    · simp only [cmd_add_topic_store, if_neg hg] at ht
      rcases List.mem_append.mp ht with h1 | h2
      · exact hdb t h1
      · rw [List.mem_singleton] at h2
        subst h2
        simpa [List.isEmpty_iff] using hg
  · intro db text out d h hfsm
    cases hd : pyIsDigit (pyStrip text) with
    | false =>
      simp only [process_topic_choice, hd, Bool.not_false, if_true] at h
      cases h
      exact FsmState.noConfusion hfsm
    | true =>
      cases htp : lookupTopic db.topics (pyInt (pyStrip text)) with
      | none =>
        simp only [process_topic_choice, hd, Bool.not_true, if_false, htp] at h
        cases h
        exact FsmState.noConfusion hfsm
      | some p =>
        obtain ⟨tid, title⟩ := p
        cases hlt : latestTest db.tests tid with
        | none =>
          simp only [process_topic_choice, hd, Bool.not_true, if_false, htp, hlt] at h
          cases h
          exact FsmState.noConfusion hfsm
        | some t =>
          cases htq : t.questions with
          | nil =>
            simp only [process_topic_choice, hd, Bool.not_true, if_false, htp, hlt, htq] at h
            exact Except.noConfusion h
          | cons q0 rest =>
            simp only [process_topic_choice, hd, Bool.not_true, if_false, htp, hlt, htq] at h
            cases h
            cases hfsm
            simp [htq]
  · intro db d u text now judge gen out h hidle
    obtain ⟨q, c, m, hq, hj, hcase⟩ := step_ok_cases h
    rcases hcase with ⟨-, hfin⟩ | ⟨-, nq, -, hout⟩
    · obtain ⟨uid, -, -, hdb⟩ := finalize_ok_shape hfin
      exact ⟨_, by rw [hdb], by simp⟩
    · rw [hout] at hidle
      exact FsmState.noConfusion hidle

/-- Witness for C10: a freshly stored one-question test is non-empty,
the started fixture session is non-empty, and the completed fixture run
divides by the positive answer count. -/
theorem stored_tests_nonempty_no_div_zero_witness :
    (⟨2, 2, [(⟨"q3", "a3"⟩ : QuestionSpec)], 5⟩ : TestRow).questions ≠ [] ∧
    sampleSession.questions ≠ [] ∧
    ∃ rec0, sampleCompleteOut.db.progress = sampleDb.progress ++ [rec0] ∧
      0 < rec0.result.length :=
  ⟨stored_tests_nonempty_no_div_zero.1 sampleDb 2 [⟨"q3", "a3"⟩] 2 5 (by decide) _
      (by decide),
    stored_tests_nonempty_no_div_zero.2.1 sampleDb "1"
      ⟨FsmState.inTest sampleSession, [Msg.testStarts "Тема 1" "q1"]⟩ sampleSession
      (by rfl) (by rfl),
    stored_tests_nonempty_no_div_zero.2.2 sampleDb sampleSessionLast 100 "y" 3
      (JudgeCall.reply (some (true, "ok"))) genOk sampleCompleteOut (by rfl) (by rfl)⟩
